import Mathlib

/-!
Shallow embedding of `build.py` from `jorenham/numpy-typing-compat`.

Text is modelled as `List Char`.  Python decimal rendering of a
non-negative integer (`f"{n}"`) is embedded as `natToDigits`; the
regex-based filename parsing of `_fetch_latest_release_hashes` is embedded
as a deterministic parser (the regexes there are deterministic: every
`(\d+)` group is followed by a non-digit literal, so greedy maximal munch
is the unique match, and `re.match` only anchors at the start of the
string, so trailing text after the pattern is allowed).
-/

/-- Decimal digit character for a value below ten (as Python's `str`). -/
def digitChar : Nat → Char
  | 0 => '0' | 1 => '1' | 2 => '2' | 3 => '3' | 4 => '4'
  | 5 => '5' | 6 => '6' | 7 => '7' | 8 => '8' | 9 => '9'
  | _ => '*'

/-- Digits of `n` in base 10, least significant first, with explicit fuel
so that the definition is structural (kernel-reducible).  Fuel `n` always
suffices because the argument shrinks by a factor of ten each step. -/
def natDigitsRevFuel : Nat → Nat → List Nat
  | 0, n => [n % 10]
  | fuel + 1, n => if n < 10 then [n] else (n % 10) :: natDigitsRevFuel fuel (n / 10)

/-- Digits of `n` in base 10, least significant first. -/
def natDigitsRev (n : Nat) : List Nat :=
  natDigitsRevFuel n n

/-- Embedding of Python's `f"{n}"` for a non-negative integer `n`:
standard decimal rendering, most significant digit first. -/
def natToDigits (n : Nat) : List Char :=
  ((natDigitsRev n).reverse).map digitChar

/-- Numeric value of the low-first digit list `natDigitsRev` produces. -/
def valRevList : List Nat → Nat
  | [] => 0
  | d :: ds => d + 10 * valRevList ds

/-- Value of a most-significant-first digit character list, as Python's
`int(...)` computes it on a digit string. -/
def digitsVal (l : List Char) : Nat :=
  l.foldl (fun a c => 10 * a + (c.toNat - 48)) 0

/-! ## Generic character-list utilities -/

/-- Boolean test that `p` is a prefix of `l`. -/
def isPre : List Char → List Char → Bool
  | [], _ => true
  | _ :: _, [] => false
  | p :: ps, c :: cs => p = c && isPre ps cs

/-- Strip the prefix `p` from `l`, or fail. -/
def dropPre : List Char → List Char → Option (List Char)
  | [], l => some l
  | _ :: _, [] => none
  | p :: ps, c :: cs => if p = c then dropPre ps cs else none

/-- Boolean test that `s` is a suffix of `l` (Python `str.endswith`). -/
def endsWithCL (s l : List Char) : Bool :=
  isPre s.reverse l.reverse

/-! ## Version model

Embeds the `Version` named tuple of `build.py` (line 99): a pair of
non-negative integers whose comparison — Python named-tuple comparison —
is lexicographic on `(major, minor)`, and whose rendering
(`Version.__str__`) is `f"{major}.{minor}"`. -/

structure Version where
  major : Nat
  minor : Nat
deriving DecidableEq, Repr

/-- Python tuple comparison `a < b`, lexicographic on `(major, minor)`. -/
def vlt (a b : Version) : Bool :=
  decide (a.major < b.major) || (decide (a.major = b.major) && decide (a.minor < b.minor))

/-- Python tuple comparison `a <= b`. -/
def vle (a b : Version) : Bool :=
  decide (a.major < b.major) || (decide (a.major = b.major) && decide (a.minor ≤ b.minor))

/-- Embedding of `Version.__str__` (line 106): `f"{major}.{minor}"`. -/
def versionChars (v : Version) : List Char :=
  natToDigits v.major ++ '.' :: natToDigits v.minor

/-- A `VersionRange` is a pair `(start, stop)` (line 115), half-open. -/
def VersionRange := Version × Version
deriving DecidableEq, Repr

/-- Membership of a version in the half-open range `[start, stop)`. -/
def inRange (v : Version) (r : VersionRange) : Bool :=
  vle r.1 v && vlt v r.2

/-! ## Names and filenames

`NAME = "numpy_typing_compat"` (line 24).  `Project.version` (line 133)
renders `f"{np_range[0]}.{BUILD}"`; `Project.name` (line 137) renders
`f"{NAME}-{version}"`; `Project.dist_paths` (line 145) appends
`".tar.gz"` for the sdist and `"-py3-none-any.whl"` for the wheel.
The constant `DIR_DIST` directory prefix is common to both paths and is
not part of the filename model. -/

def nameChars : List Char :=
  ['n','u','m','p','y','_','t','y','p','i','n','g','_','c','o','m','p','a','t']

def sdistSuffix : List Char := ['.','t','a','r','.','g','z']

def wheelSuffix : List Char :=
  ['-','p','y','3','-','n','o','n','e','-','a','n','y','.','w','h','l']

def whlExt : List Char := ['.','w','h','l']

/-- The sdist filename `f"{NAME}-{major}.{minor}.{build}.tar.gz"`. -/
def sdistName (major minor build : Nat) : List Char :=
  nameChars ++ '-' :: (natToDigits major ++ '.' :: (natToDigits minor ++ '.' ::
    (natToDigits build ++ sdistSuffix)))

/-- The wheel filename `f"{NAME}-{major}.{minor}.{build}-py3-none-any.whl"`. -/
def wheelName (major minor build : Nat) : List Char :=
  nameChars ++ '-' :: (natToDigits major ++ '.' :: (natToDigits minor ++ '.' ::
    (natToDigits build ++ wheelSuffix)))

/-! ## The filename patterns of `_fetch_latest_release_hashes`

Lines 271-281 of `build.py`: a file whose name ends with `".whl"` is
matched with `re.match(rf"{NAME}-(\d)\.(\d+)\.(\d+)-py3-none-any\.whl", fname)`,
any other file with `re.match(rf"{NAME}-(\d)\.(\d+)\.(\d+)\.tar\.gz", fname)`.
Both regexes are deterministic — `(\d)` is exactly one digit, each `(\d+)`
is followed by a non-digit literal so only the maximal digit run can
match, and `re.match` anchors at the start only — so they are embedded as
the strict parser below.  On a match, groups 1-3 are converted with
`int(...)` (embedded by `digitsVal`). -/

/-- Consume one literal character (a step of the regex literal text). -/
def expectChar (ch : Char) : List Char → Option (List Char)
  | c :: rest => if c = ch then some rest else none
  | [] => none

/-- Consume exactly one digit, the regex group `(\d)`, returning its value
as `int(...)` does. -/
def takeDigit : List Char → Option (Nat × List Char)
  | c :: rest => if c.isDigit then some (c.toNat - 48, rest) else none
  | [] => none

/-- Consume a maximal non-empty digit run, the regex group `(\d+)`
(maximal munch is the unique match because the group is always followed
by a non-digit literal), returning its value as `int(...)` does. -/
def takeDigits (l : List Char) : Option (Nat × List Char) :=
  let ds := l.takeWhile Char.isDigit
  if ds.isEmpty then none else some (digitsVal ds, l.dropWhile Char.isDigit)

/-- Match `NAME-(\d)\.(\d+)\.(\d+)` followed by `tailLit` at the start of
`fname`, returning `(Version(major, minor), build)` like lines 283-284.
Trailing text after `tailLit` is allowed, as with `re.match`. -/
def parsePat (tailLit : List Char) (fname : List Char) : Option (Version × Nat) :=
  (dropPre (nameChars ++ ['-']) fname).bind fun r0 =>
  (takeDigit r0).bind fun p1 =>
  (expectChar '.' p1.2).bind fun r2 =>
  (takeDigits r2).bind fun p2 =>
  (expectChar '.' p2.2).bind fun r4 =>
  (takeDigits r4).bind fun p3 =>
  if isPre tailLit p3.2 then some (⟨p1.1, p2.1⟩, p3.1) else none

/-- Dispatch of lines 271-280: the wheel pattern for names ending in
`".whl"`, the sdist pattern otherwise. -/
def parseIndexFilename (fname : List Char) : Option (Version × Nat) :=
  if endsWithCL whlExt fname then parsePat wheelSuffix fname
  else parsePat sdistSuffix fname

/-! ## Project model

`Project.__init__` (lines 128-130) only assigns the two range fields; it
performs no validation of any kind. -/

structure Project where
  np_range : VersionRange
  py_range : VersionRange
deriving DecidableEq, Repr

/-- Embedding of `Project.__init__`: store the two ranges, nothing else. -/
def Project.init (np_range : VersionRange) (py_range : VersionRange) : Project :=
  ⟨np_range, py_range⟩

/-- Embedding of line 29: `BUILD = year * 10_000 + month * 100 + day`,
computed once per run from the current date. -/
def buildNumber (year month day : Nat) : Nat :=
  year * 10000 + month * 100 + day

/-- Embedding of `Project.version` (line 133): `f"{np_range[0]}.{BUILD}"`.
The global `BUILD` is passed explicitly. -/
def Project.version (p : Project) (build : Nat) : List Char :=
  versionChars p.np_range.1 ++ '.' :: natToDigits build

/-- Embedding of `Project.name` (line 137): `f"{NAME}-{version}"`. -/
def Project.name (p : Project) (build : Nat) : List Char :=
  nameChars ++ '-' :: p.version build

/-- Sdist filename of `Project.dist_paths` (line 147): `f"{name}.tar.gz"`. -/
def Project.sdistFile (p : Project) (build : Nat) : List Char :=
  p.name build ++ sdistSuffix

/-- Wheel filename of `Project.dist_paths` (line 148):
`f"{name}-py3-none-any.whl"`. -/
def Project.wheelFile (p : Project) (build : Nat) : List Char :=
  p.name build ++ wheelSuffix

/-- The declared matrix `PROJECTS` (lines 293-322), verbatim. -/
def PROJECTS : List Project :=
  [ Project.init (⟨1, 22⟩, ⟨1, 23⟩) (⟨3, 8⟩, ⟨3, 11⟩),
    Project.init (⟨1, 23⟩, ⟨1, 25⟩) (⟨3, 8⟩, ⟨3, 12⟩),
    Project.init (⟨1, 25⟩, ⟨2, 0⟩) (⟨3, 9⟩, ⟨3, 13⟩),
    Project.init (⟨2, 0⟩, ⟨2, 1⟩) (⟨3, 9⟩, ⟨3, 13⟩),
    Project.init (⟨2, 1⟩, ⟨2, 2⟩) (⟨3, 10⟩, ⟨3, 14⟩),
    Project.init (⟨2, 2⟩, ⟨2, 3⟩) (⟨3, 10⟩, ⟨3, 14⟩),
    Project.init (⟨2, 3⟩, ⟨2, 4⟩) (⟨3, 11⟩, ⟨3, 15⟩) ]

/-- A placeholder project used with `List.getD` to avoid dependent index
proofs in statements about `PROJECTS`. -/
def defaultProject : Project :=
  Project.init (⟨0, 0⟩, ⟨0, 0⟩) (⟨0, 0⟩, ⟨0, 0⟩)

/-- Entry `i` of the matrix (out-of-range indices give the placeholder). -/
def projAt (i : Nat) : Project :=
  PROJECTS.getD i defaultProject

/-- The adjacency invariant claimed for a matrix of projects: each range
stops where the next starts, and starts strictly increase. -/
def adjacentOk (l : List Project) : Bool :=
  (List.range (l.length - 1)).all fun i =>
    decide ((l.getD i defaultProject).np_range.2 = (l.getD (i + 1) defaultProject).np_range.1)
      && vlt (l.getD i defaultProject).np_range.1 (l.getD (i + 1) defaultProject).np_range.1

/-! ## Publish decision

Embeds the inner loop of `main` (lines 341-353).  For one artifact kind
of one project: `pypi_build, pypi_hash = build_hashes.get(np_version, (0, ""))`;
if `pypi_hash == hash_` the file is removed with `path.unlink()` (after an
optional stderr note gated by `--quiet`, which we do not model since it is
purely diagnostic); otherwise, when `--silent` is absent, the path is
printed to stdout for the caller.  Hashes are uninterpreted hex-digest strings,
modelled as character lists. -/

inductive PublishAction where
  | KEEP
  | DISCARD
deriving DecidableEq, Repr

structure ArtifactOutcome where
  action : PublishAction
  fileRemains : Bool
  surfaced : Bool
deriving DecidableEq, Repr

/-- Python `dict` lookup on an association list with unique keys. -/
def dictGet : List (Version × Nat × List Char) → Version → Option (Nat × List Char)
  | [], _ => none
  | (k, v) :: rest, key => if k = key then some v else dictGet rest key

/-- Python `dict` assignment: replace in place, else append. -/
def dictSet : List (Version × Nat × List Char) → Version → Nat × List Char →
    List (Version × Nat × List Char)
  | [], k, v => [(k, v)]
  | (k', v') :: rest, k, v =>
    if k' = k then (k, v) :: rest else (k', v') :: dictSet rest k v

/-- One artifact kind of one project inside the `main` loop
(lines 341-353): the hash table for this kind, the project's
`np_range[0]`, the freshly computed sha256 of the artifact, and the
`--silent` flag. -/
def publishStep (table : List (Version × Nat × List Char)) (np : Version)
    (hash : List Char) (silent : Bool) : ArtifactOutcome :=
  let prev := (dictGet table np).getD (0, [])
  if prev.2 = hash then
    { action := .DISCARD, fileRemains := false, surfaced := false }
  else
    { action := .KEEP, fileRemains := true, surfaced := !silent }

/-! ## Build orchestrator

Embeds `_run_command` (lines 76-96) and `Project.build` (lines 217-249).
A completed subprocess is its exit status plus captured stdout/stderr.
`check_returncode()` raises `CalledProcessError` carrying the captured
output whenever the status is non-zero.  On a zero status, the stderr is
scanned with `re.finditer(r"Successfully built (/[\w\-\./]+)", ...)`;
since the matched group starts with `/`, `Path.cwd() / match.group(1)`
is the matched absolute path itself.  Each discovered path is asserted
to exist on disk (`assert out_path.is_file()`); if no path was found a
`RuntimeError` is raised with every stderr line attached as a note; then
`assert len(paths) == 2`; the pair is ordered by the `.whl` suffix and
compared to the precomputed expected paths. -/

structure CompletedProcess where
  returncode : Int
  stdout : List Char
  stderr : List Char
deriving DecidableEq, Repr

structure DistInfo (T : Type) where
  sdist : T
  wheel : T
deriving DecidableEq, Repr

inductive BuildFailure where
  /-- The `subprocess.CalledProcessError` from `check_returncode` (line 90),
  carrying the captured output. -/
  | calledProcessError (returncode : Int) (stdout stderr : List Char)
  /-- Failure of `assert out_path.is_file()` for a discovered path (line 232). -/
  | integrityFault (path : List Char)
  /-- The `RuntimeError("No files were built, ...")` with one note per
  captured stderr line (lines 235-239). -/
  | noFilesBuilt (notes : List (List Char))
  /-- Failure of `assert len(paths) == 2` (line 241). -/
  | countMismatch (paths : List (List Char))
  /-- Failure of `assert path_sdist == paths_expect.sdist` (line 248). -/
  | sdistMismatch (actual expected : List Char)
  /-- Failure of `assert path_wheel == paths_expect.wheel` (line 249). -/
  | wheelMismatch (actual expected : List Char)
deriving DecidableEq, Repr

/-- Embedding of `_run_command` minus the console echo: run to
completion, then `check_returncode()`. -/
def runCommand (p : CompletedProcess) : Except BuildFailure CompletedProcess :=
  if p.returncode = 0 then .ok p
  else .error (.calledProcessError p.returncode p.stdout p.stderr)

/-- Characters matched by the regex class `[\w\-\./]` (ASCII word
characters, hyphen, dot, slash; the paths involved are ASCII). -/
def isPathChar (c : Char) : Bool :=
  c.isAlphanum || c = '_' || c = '-' || c = '.' || c = '/'

def markerLit : List Char :=
  ['S','u','c','c','e','s','s','f','u','l','l','y',' ','b','u','i','l','t',' ']

/-- Try to match `Successfully built (/[\w\-\./]+)` at the head of `s`,
returning the captured group and the rest of the input after the match. -/
def matchMarkerAt (s : List Char) : Option (List Char × List Char) :=
  match dropPre markerLit s with
  | none => none
  | some rest =>
    match rest with
    | '/' :: rest2 =>
      let run := rest2.takeWhile isPathChar
      if run.isEmpty then none
      else some ('/' :: run, rest2.dropWhile isPathChar)
    | _ => none

/-- Embedding of `re.finditer` for the marker pattern: scan left to
right, yield each leftmost match, continue after its end.  Fuel bounds
the recursion structurally; every step consumes at least one character,
so fuel equal to the input length always suffices. -/
def scanMarkersFuel : Nat → List Char → List (List Char)
  | _, [] => []
  | 0, _ => []
  | fuel + 1, s =>
    match matchMarkerAt s with
    | some pr => pr.1 :: scanMarkersFuel fuel pr.2
    | none =>
      match s with
      | [] => []
      | _ :: rest => scanMarkersFuel fuel rest

/-- All matches of the success-marker pattern in the captured stderr. -/
def scanMarkers (s : List Char) : List (List Char) :=
  scanMarkersFuel s.length s

/-- Embedding of Python `str.splitlines()` for newline-separated text:
split on the line feed, without a trailing empty line. -/
def splitlinesFuel : Nat → List Char → List (List Char)
  | _, [] => []
  | 0, s => [s]
  | fuel + 1, s =>
    let line := s.takeWhile fun c => !(c = '\n')
    match s.dropWhile fun c => !(c = '\n') with
    | [] => [line]
    | _ :: rest => line :: splitlinesFuel fuel rest

def splitlines (s : List Char) : List (List Char) :=
  splitlinesFuel s.length s

/-- The discovery loop of lines 229-233: for each match, in order,
assert that the path is a regular file, collecting the paths. -/
def verifyPaths (markers : List (List Char)) (isFile : List Char → Bool) :
    Except BuildFailure (List (List Char)) :=
  match markers with
  | [] => .ok []
  | p :: ps =>
    if isFile p then (verifyPaths ps isFile).map (p :: ·)
    else .error (.integrityFault p)

/-- The verification in `Project.build` after a zero-status `uv build`
(lines 229-249): discover paths, check emptiness, check the count,
classify by the `.whl` suffix, compare with the expected filenames. -/
def verifyBuild (stderr : List Char) (isFile : List Char → Bool)
    (expected : DistInfo (List Char)) : Except BuildFailure (DistInfo (List Char)) :=
  match verifyPaths (scanMarkers stderr) isFile with
  | .error e => .error e
  | .ok paths =>
    match paths with
    | [] => .error (.noFilesBuilt (splitlines stderr))
    | [a, b] =>
      let pair := if endsWithCL whlExt a then (a, b) else (b, a)
      if pair.2 = expected.sdist then
        if pair.1 = expected.wheel then .ok ⟨pair.2, pair.1⟩
        else .error (.wheelMismatch pair.1 expected.wheel)
      else .error (.sdistMismatch pair.2 expected.sdist)
    | other => .error (.countMismatch other)

/-- The build-and-verify step of `Project.build` for the `uv build`
invocation: `_run_command` first (which raises on a non-zero status),
then the stderr scan and artifact checks. -/
def buildStep (p : CompletedProcess) (isFile : List Char → Bool)
    (expected : DistInfo (List Char)) : Except BuildFailure (DistInfo (List Char)) :=
  match runCommand p with
  | .error e => .error e
  | .ok c => verifyBuild c.stderr isFile expected

/-! ## Remote index fetch

Embeds the per-file processing of `_fetch_latest_release_hashes`
(lines 269-290).  The JSON plumbing (`_fetch_json`, the `"files"` key
check) is outside the model; the input is the list of file entries, each
a filename and its sha256.  For each entry: pick the wheel pattern when
the name ends with `".whl"`, the sdist pattern otherwise; `assert match`;
`assert build > 2025_06_00`; keep the entry per numpy version when no
entry exists yet or the stored build number is smaller. -/

structure FileEntry where
  filename : List Char
  sha256 : List Char
deriving DecidableEq, Repr

inductive FetchFailure where
  /-- Failure of `assert match, file` (line 281). -/
  | patternMismatch (f : FileEntry)
  /-- Failure of `assert build > 2025_06_00, file` (line 285). -/
  | staleBuild (f : FileEntry)
deriving DecidableEq, Repr

/-- Both hash tables, sdist then wheel, as in the returned
`DistInfo(sdist=latest_sdists, wheel=latest_wheels)`. -/
abbrev HashTables : Type :=
  DistInfo (List (Version × Nat × List Char))

/-- One iteration of the `for file in data["files"]` loop. -/
def processFile (acc : HashTables) (f : FileEntry) : Except FetchFailure HashTables :=
  let isWheel := endsWithCL whlExt f.filename
  match (if isWheel then parsePat wheelSuffix f.filename
         else parsePat sdistSuffix f.filename) with
  | none => .error (.patternMismatch f)
  | some (npVersion, build) =>
    if build > 20250600 then
      let target := if isWheel then acc.wheel else acc.sdist
      let target' :=
        match dictGet target npVersion with
        | none => dictSet target npVersion (build, f.sha256)
        | some (storedBuild, _) =>
          if storedBuild < build then dictSet target npVersion (build, f.sha256)
          else target
      .ok (if isWheel then ⟨acc.sdist, target'⟩ else ⟨target', acc.wheel⟩)
    else .error (.staleBuild f)

/-- Embedding of `_fetch_latest_release_hashes`: fold the loop over the
published file entries, starting from two empty tables. -/
def fetchLatestReleaseHashes (files : List FileEntry) : Except FetchFailure HashTables :=
  files.foldlM processFile ⟨[], []⟩

/-- The pattern selected for an index entry by its extension. -/
def entryParse (f : FileEntry) : Option (Version × Nat) :=
  if endsWithCL whlExt f.filename then parsePat wheelSuffix f.filename
  else parsePat sdistSuffix f.filename

/-- The success condition for one index entry: its filename matches the
pattern selected by its extension and its build number is after June
2025. -/
def entryOk (f : FileEntry) : Bool :=
  match entryParse f with
  | none => false
  | some (_, b) => decide (b > 20250600)

/-! ## End-of-run control flow of `main`

Embeds the shape of `main` (lines 325-361) that the cleanup claim is
about: the per-project loop runs `project.build()` in declared order;
any exception from a build propagates out of `main` at once; only when
the loop finishes does line 358 run
`if "--keep" not in args and DIR_PROJECTS.exists(): shutil.rmtree(DIR_PROJECTS)`.
There is no `try`/`finally` around the loop.  The model takes the
outcome of each project's build as a function and reports whether the
generated-projects directory was removed. -/

structure RunReport where
  /-- The exception that escaped `main`, if any. -/
  failure : Option BuildFailure
  /-- Whether `shutil.rmtree(DIR_PROJECTS)` was executed. -/
  projectsDirRemoved : Bool
deriving Repr

/-- Run the builds in matrix order, stopping at the first exception. -/
def runBuilds (buildOf : Project → Except BuildFailure Unit) :
    List Project → Option BuildFailure
  | [] => none
  | p :: rest =>
    match buildOf p with
    | .error e => some e
    | .ok _ => runBuilds buildOf rest

/-- The exit path of `main`: on an escaped exception the cleanup at
line 358 is never reached; on normal completion it runs exactly when
`--keep` was not passed and the directory exists. -/
def mainCleanup (args : List (List Char)) (buildOf : Project → Except BuildFailure Unit)
    (projectsDirExists : Bool) : RunReport :=
  match runBuilds buildOf PROJECTS with
  | some e => { failure := some e, projectsDirRemoved := false }
  | none =>
    { failure := none,
      projectsDirRemoved := !(args.contains ['-','-','k','e','e','p']) && projectsDirExists }

/-- The build-number component of a version string or package name: the
value of the maximal trailing digit run (the version strings here end in
`.{BUILD}`). -/
def trailingNatVal (s : List Char) : Option Nat :=
  let ds := s.reverse.takeWhile Char.isDigit
  if ds.isEmpty then none else some (digitsVal ds.reverse)

/-- Whether an `Except` computation failed. -/
def isError {E A : Type} : Except E A → Bool
  | .error _ => true
  | .ok _ => false

theorem natDigitsRevFuel_irrel :
    ∀ fuel₁ fuel₂ n, n ≤ fuel₁ → n ≤ fuel₂ →
      natDigitsRevFuel fuel₁ n = natDigitsRevFuel fuel₂ n := by
  intro fuel₁
  induction fuel₁ with
  | zero =>
    intro fuel₂ n h1 _
    have hn : n = 0 := Nat.le_zero.mp h1
    subst hn
    cases fuel₂ <;> simp [natDigitsRevFuel]
  | succ f ih =>
    intro fuel₂ n h1 h2
    cases fuel₂ with
    | zero =>
      have hn : n = 0 := Nat.le_zero.mp h2
      subst hn
      simp [natDigitsRevFuel]
    | succ g =>
      simp only [natDigitsRevFuel]
      by_cases h : n < 10
      · simp [h]
      · simp only [h, if_false]
        have hlt : n / 10 < n := Nat.div_lt_self (by omega) (by omega)
        exact congrArg _ (ih g (n / 10) (by omega) (by omega))

theorem natDigitsRev_unfold (n : Nat) :
    natDigitsRev n = if n < 10 then [n] else (n % 10) :: natDigitsRev (n / 10) := by
  by_cases h : n < 10
  · unfold natDigitsRev
    cases n with
    | zero => simp [natDigitsRevFuel]
    | succ m => simp [natDigitsRevFuel, h]
  · have h10 : 10 ≤ n := by omega
    unfold natDigitsRev
    have hsucc : n = (n - 1) + 1 := by omega
    rw [hsucc]
    simp only [natDigitsRevFuel]
    rw [← hsucc]
    simp only [h, if_false]
    have hlt : n / 10 < n := Nat.div_lt_self (by omega) (by omega)
    exact congrArg _ (natDigitsRevFuel_irrel (n - 1) (n / 10) (n / 10) (by omega) le_rfl)

theorem valRevList_natDigitsRev (n : Nat) : valRevList (natDigitsRev n) = n := by
  induction n using Nat.strong_induction_on with
  | _ n ih =>
    rw [natDigitsRev_unfold]
    by_cases h : n < 10
    · simp [h, valRevList]
    · simp only [h, if_false, valRevList]
      rw [ih (n / 10) (Nat.div_lt_self (by omega) (by omega))]
      omega

theorem natDigitsRev_lt_ten (n : Nat) : ∀ d ∈ natDigitsRev n, d < 10 := by
  induction n using Nat.strong_induction_on with
  | _ n ih =>
    rw [natDigitsRev_unfold]
    by_cases h : n < 10
    · simp [h]
    · simp only [h, if_false, List.mem_cons]
      rintro d (rfl | hd)
      · omega
      · exact ih (n / 10) (Nat.div_lt_self (by omega) (by omega)) d hd

theorem natDigitsRev_ne_nil (n : Nat) : natDigitsRev n ≠ [] := by
  rw [natDigitsRev_unfold]
  by_cases h : n < 10 <;> simp [h]

theorem digitChar_isDigit {d : Nat} (h : d < 10) : (digitChar d).isDigit = true := by
  interval_cases d <;> decide

theorem digitChar_toNat {d : Nat} (h : d < 10) : (digitChar d).toNat - 48 = d := by
  interval_cases d <;> decide

theorem natToDigits_ne_nil (n : Nat) : natToDigits n ≠ [] := by
  unfold natToDigits
  intro h
  exact natDigitsRev_ne_nil n (by simpa using h)

theorem natToDigits_isDigit (n : Nat) : ∀ c ∈ natToDigits n, c.isDigit = true := by
  intro c hc
  unfold natToDigits at hc
  rcases List.mem_map.mp hc with ⟨d, hd, rfl⟩
  exact digitChar_isDigit (natDigitsRev_lt_ten n d (List.mem_reverse.mp hd))

theorem foldl_digits_eq (l : List Nat) (h : ∀ d ∈ l, d < 10) :
    digitsVal ((l.reverse).map digitChar) = valRevList l := by
  induction l with
  | nil => rfl
  | cons d ds ih =>
    have hd : d < 10 := h d (List.mem_cons_self d ds)
    have hds : ∀ x ∈ ds, x < 10 := fun x hx => h x (List.mem_cons_of_mem d hx)
    simp only [List.reverse_cons, List.map_append, List.map_cons, List.map_nil]
    unfold digitsVal
    rw [List.foldl_append]
    unfold digitsVal at ih
    rw [ih hds, valRevList]
    simp [digitChar_toNat hd]
    ring

theorem digitsVal_natToDigits (n : Nat) : digitsVal (natToDigits n) = n := by
  unfold natToDigits
  rw [foldl_digits_eq _ (natDigitsRev_lt_ten n), valRevList_natDigitsRev]

theorem natToDigits_lt_ten {n : Nat} (h : n < 10) :
    natToDigits n = [digitChar n] := by
  unfold natToDigits
  rw [natDigitsRev_unfold]
  simp [h]

theorem isPre_append (p t : List Char) : isPre p (p ++ t) = true := by
  induction p with
  | nil => rfl
  | cons c cs ih => simp [isPre, ih]

theorem dropPre_append (p rest : List Char) : dropPre p (p ++ rest) = some rest := by
  induction p with
  | nil => rfl
  | cons c cs ih => simp [dropPre, ih]

theorem takeWhile_append_of_all {q : Char → Bool} {l : List Char}
    (h : ∀ c ∈ l, q c = true) (t : List Char) :
    List.takeWhile q (l ++ t) = l ++ List.takeWhile q t := by
  induction l with
  | nil => rfl
  | cons c cs ih =>
    have hc : q c = true := h c (List.mem_cons_self c cs)
    simp only [List.cons_append, List.takeWhile_cons, hc, if_true]
    rw [ih (fun x hx => h x (List.mem_cons_of_mem c hx))]

theorem dropWhile_append_of_all {q : Char → Bool} {l : List Char}
    (h : ∀ c ∈ l, q c = true) (t : List Char) :
    List.dropWhile q (l ++ t) = List.dropWhile q t := by
  induction l with
  | nil => rfl
  | cons c cs ih =>
    have hc : q c = true := h c (List.mem_cons_self c cs)
    simp only [List.cons_append, List.dropWhile_cons, hc, if_true]
    exact ih (fun x hx => h x (List.mem_cons_of_mem c hx))

/-! ## Round-trip of the naming scheme through the index patterns -/

theorem isPre_refl (l : List Char) : isPre l l = true := by
  have h := isPre_append l []
  rwa [List.append_nil] at h

theorem endsWith_append (s t : List Char) : endsWithCL s (t ++ s) = true := by
  unfold endsWithCL
  rw [List.reverse_append]
  exact isPre_append _ _

theorem isPre_whlrev_z (rest : List Char) :
    isPre ['l','h','w','.'] ('z' :: rest) = false := rfl

theorem endsWith_whl_of_sdist (t : List Char) :
    endsWithCL whlExt (t ++ sdistSuffix) = false := by
  unfold endsWithCL
  rw [List.reverse_append]
  exact isPre_whlrev_z (['g','.','r','a','t','.'] ++ t.reverse)

theorem expectChar_cons (a : Char) (r : List Char) : expectChar a (a :: r) = some r := by
  simp [expectChar]

theorem takeDigit_digits {n : Nat} (h : n < 10) (t : List Char) :
    takeDigit (natToDigits n ++ t) = some (n, t) := by
  rw [natToDigits_lt_ten h]
  simp [takeDigit, digitChar_isDigit h, digitChar_toNat h]

theorem takeDigits_digits (n : Nat) {c : Char} (hc : c.isDigit = false) (t : List Char) :
    takeDigits (natToDigits n ++ c :: t) = some (n, c :: t) := by
  unfold takeDigits
  rw [takeWhile_append_of_all (natToDigits_isDigit n),
      dropWhile_append_of_all (natToDigits_isDigit n)]
  simp only [List.takeWhile_cons, List.dropWhile_cons, hc]
  simp [List.isEmpty_iff, natToDigits_ne_nil n, digitsVal_natToDigits]

theorem parsePat_roundtrip {tc : Char} (htc : tc.isDigit = false) (trest : List Char)
    {major : Nat} (h : major < 10) (minor build : Nat) :
    parsePat (tc :: trest)
      (nameChars ++ '-' :: (natToDigits major ++ '.' :: (natToDigits minor ++ '.' ::
        (natToDigits build ++ (tc :: trest))))) = some (⟨major, minor⟩, build) := by
  have hshape :
      nameChars ++ '-' :: (natToDigits major ++ '.' :: (natToDigits minor ++ '.' ::
        (natToDigits build ++ (tc :: trest))))
      = (nameChars ++ ['-']) ++ (natToDigits major ++ '.' :: (natToDigits minor ++ '.' ::
        (natToDigits build ++ (tc :: trest)))) := by
    simp
  unfold parsePat
  rw [hshape, dropPre_append]
  simp only [Option.some_bind]
  rw [takeDigit_digits h]
  simp only [Option.some_bind]
  rw [expectChar_cons]
  simp only [Option.some_bind]
  rw [takeDigits_digits minor (c := '.') (by decide)]
  simp only [Option.some_bind]
  rw [expectChar_cons]
  simp only [Option.some_bind]
  rw [takeDigits_digits build htc]
  simp only [Option.some_bind]
  rw [isPre_refl]
  rfl

theorem parse_sdistName {major : Nat} (h : major < 10) (minor build : Nat) :
    parseIndexFilename (sdistName major minor build) = some (⟨major, minor⟩, build) := by
  have hsplit : sdistName major minor build
      = (nameChars ++ '-' :: (natToDigits major ++ '.' :: (natToDigits minor ++ '.' ::
          natToDigits build))) ++ sdistSuffix := by
    simp [sdistName, List.append_assoc]
  unfold parseIndexFilename
  rw [hsplit, endsWith_whl_of_sdist, ← hsplit]
  show parsePat sdistSuffix (sdistName major minor build) = _
  have hsfx : sdistSuffix = '.' :: ['t','a','r','.','g','z'] := rfl
  unfold sdistName
  rw [hsfx]
  exact parsePat_roundtrip (by decide) _ h minor build

theorem parse_wheelName {major : Nat} (h : major < 10) (minor build : Nat) :
    parseIndexFilename (wheelName major minor build) = some (⟨major, minor⟩, build) := by
  have hsplit : wheelName major minor build
      = ((nameChars ++ '-' :: (natToDigits major ++ '.' :: (natToDigits minor ++ '.' ::
          natToDigits build))) ++ ['-','p','y','3','-','n','o','n','e','-','a','n','y'])
        ++ whlExt := by
    simp [wheelName, wheelSuffix, whlExt, List.append_assoc]
  unfold parseIndexFilename
  rw [hsplit, endsWith_append, ← hsplit]
  show parsePat wheelSuffix (wheelName major minor build) = _
  have hsfx : wheelSuffix = '-' :: ['p','y','3','-','n','o','n','e','-','a','n','y','.','w','h','l'] := rfl
  unfold wheelName
  rw [hsfx]
  exact parsePat_roundtrip (by decide) _ h minor build

/-! ## Supporting lemmas -/

theorem range_disjoint {r₁ r₂ : VersionRange} (h : vle r₁.2 r₂.1 = true) (v : Version) :
    inRange v r₁ = true → inRange v r₂ = true → False := by
  unfold inRange vle vlt at *
  intro h1 h2
  simp only [Bool.and_eq_true, Bool.or_eq_true, Bool.and_eq_true, decide_eq_true_eq] at *
  omega

theorem trailingNatVal_append (xs : List Char) (b : Nat) :
    trailingNatVal (xs ++ '.' :: natToDigits b) = some b := by
  unfold trailingNatVal
  rw [List.reverse_append, List.reverse_cons, List.append_assoc,
      takeWhile_append_of_all (fun c hc => natToDigits_isDigit b c (List.mem_reverse.mp hc))]
  have hdot : ('.').isDigit = false := rfl
  simp only [List.cons_append, List.nil_append, List.takeWhile_cons, hdot, Bool.false_eq_true,
    if_false, List.append_nil, List.reverse_reverse]
  have hne : (natToDigits b).reverse ≠ [] := by
    intro hcon
    exact natToDigits_ne_nil b (by simpa using hcon)
  simp [List.isEmpty_iff, hne, digitsVal_natToDigits]

theorem name_shape (p : Project) (b : Nat) :
    p.name b = (nameChars ++ '-' :: versionChars p.np_range.1) ++ '.' :: natToDigits b := by
  simp [Project.name, Project.version, List.append_assoc]

theorem sdistFile_eq (p : Project) (b : Nat) :
    p.sdistFile b = sdistName p.np_range.1.major p.np_range.1.minor b := by
  simp [Project.sdistFile, Project.name, Project.version, versionChars, sdistName,
    List.append_assoc]

theorem wheelFile_eq (p : Project) (b : Nat) :
    p.wheelFile b = wheelName p.np_range.1.major p.np_range.1.minor b := by
  simp [Project.wheelFile, Project.name, Project.version, versionChars, wheelName,
    List.append_assoc]

theorem verifyPaths_ok_eq {ms l : List (List Char)} {isFile : List Char → Bool}
    (h : verifyPaths ms isFile = .ok l) : l = ms := by
  induction ms generalizing l with
  | nil =>
    simp only [verifyPaths] at h
    cases h
    rfl
  | cons p ps ih =>
    simp only [verifyPaths] at h
    by_cases hf : isFile p
    · simp only [hf, if_true] at h
      cases hvp : verifyPaths ps isFile with
      | error e => rw [hvp] at h; simp [Except.map] at h
      | ok l' =>
        rw [hvp] at h
        simp only [Except.map] at h
        cases h
        rw [ih hvp]
    · simp [hf] at h

theorem verifyPaths_all {ms : List (List Char)} {isFile : List Char → Bool}
    (h : ∀ q ∈ ms, isFile q = true) : verifyPaths ms isFile = .ok ms := by
  induction ms with
  | nil => rfl
  | cons p ps ih =>
    have hp : isFile p = true := h p (List.mem_cons_self p ps)
    simp only [verifyPaths, hp, if_true,
      ih (fun q hq => h q (List.mem_cons_of_mem p hq))]
    rfl

theorem processFile_ok_of_good (acc : HashTables) {f : FileEntry}
    (h : entryOk f = true) : ∃ acc', processFile acc f = .ok acc' := by
  unfold entryOk entryParse at h
  unfold processFile
  cases hp : (if endsWithCL whlExt f.filename then parsePat wheelSuffix f.filename
      else parsePat sdistSuffix f.filename) with
  | none => rw [hp] at h; simp at h
  | some pr =>
    rw [hp] at h
    rcases pr with ⟨v, b⟩
    simp only [decide_eq_true_eq] at h
    simp only [hp, h, if_true]
    exact ⟨_, rfl⟩

theorem processFile_error_of_bad (acc : HashTables) {f : FileEntry}
    (h : entryOk f = false) : ∃ e, processFile acc f = .error e := by
  unfold entryOk entryParse at h
  unfold processFile
  cases hp : (if endsWithCL whlExt f.filename then parsePat wheelSuffix f.filename
      else parsePat sdistSuffix f.filename) with
  | none => simp only [hp]; exact ⟨_, rfl⟩
  | some pr =>
    rw [hp] at h
    rcases pr with ⟨v, b⟩
    simp only [decide_eq_false_iff_not] at h
    simp only [hp, h, if_false]
    exact ⟨_, rfl⟩

theorem processFile_good_of_ok {acc acc' : HashTables} {f : FileEntry}
    (h : processFile acc f = .ok acc') : entryOk f = true := by
  by_cases hg : entryOk f = true
  · exact hg
  · rcases processFile_error_of_bad acc (Bool.eq_false_iff.mpr (by simpa using hg)) with ⟨e, he⟩
    rw [he] at h
    cases h

theorem foldl_fetch_ok :
    ∀ (files : List FileEntry) (acc tables : HashTables),
      List.foldlM processFile acc files = .ok tables →
      ∀ f ∈ files, entryOk f = true := by
  intro files
  induction files with
  | nil => intro acc tables _ f hf; cases hf
  | cons g gs ih =>
    intro acc tables h f hf
    rw [List.foldlM_cons] at h
    cases hp : processFile acc g with
    | error e => rw [hp] at h; cases h
    | ok acc' =>
      rw [hp] at h
      rcases List.mem_cons.mp hf with rfl | hfs
      · exact processFile_good_of_ok hp
      · exact ih acc' tables h f hfs

theorem foldl_fetch_error :
    ∀ (files : List FileEntry) (acc : HashTables),
      (∃ f ∈ files, entryOk f = false) →
      isError (List.foldlM processFile acc files) = true := by
  intro files
  induction files with
  | nil => intro acc h; rcases h with ⟨f, hf, _⟩; cases hf
  | cons g gs ih =>
    intro acc h
    rw [List.foldlM_cons]
    by_cases hg : entryOk g = true
    · rcases processFile_ok_of_good acc hg with ⟨acc', hp⟩
      rw [hp]
      rcases h with ⟨f, hf, hbad⟩
      rcases List.mem_cons.mp hf with rfl | hfs
      · rw [hg] at hbad; cases hbad
      · exact ih acc' ⟨f, hfs, hbad⟩
    · rcases processFile_error_of_bad acc (Bool.eq_false_iff.mpr (by simpa using hg)) with ⟨e, hp⟩
      rw [hp]
      rfl

/-! ## Claims -/

/-- C5: for every pair of adjacent entries in the declared project
matrix, the dependency range of entry `i` stops exactly where the range
of entry `i+1` starts, the range starts are strictly increasing, and
consequently the dependency ranges are pairwise non-overlapping. -/
theorem c5_matrix_contiguous_ordered_disjoint :
    (∀ i, i < PROJECTS.length - 1 →
      (projAt i).np_range.2 = (projAt (i + 1)).np_range.1
      ∧ vlt (projAt i).np_range.1 (projAt (i + 1)).np_range.1 = true)
    ∧ List.Pairwise
        (fun p q => ∀ v : Version,
          ¬(inRange v p.np_range = true ∧ inRange v q.np_range = true))
        PROJECTS := by
  constructor
  · decide
  · have h : List.Pairwise (fun p q : Project => vle p.np_range.2 q.np_range.1 = true)
        PROJECTS := by decide
    exact h.imp fun hpq v hv => range_disjoint hpq v hv.1 hv.2

/-- Witness for C5 at the first adjacent pair of the matrix. -/
theorem c5_matrix_contiguous_ordered_disjoint_witness :
    (projAt 0).np_range.2 = (projAt 1).np_range.1
    ∧ vlt (projAt 0).np_range.1 (projAt 1).np_range.1 = true :=
  c5_matrix_contiguous_ordered_disjoint.1 0 (by decide)

/-- C6 counterexample: `Project.__init__` performs no validation, so a
project whose dependency range runs backwards is constructed without any
error, and a two-entry matrix with non-monotonic ranges is constructible
while violating the adjacency invariant; no configuration error exists
anywhere on this path. -/
theorem c6_counterexample :
    Project.init (⟨2, 0⟩, ⟨1, 0⟩) (⟨3, 8⟩, ⟨3, 11⟩)
      = { np_range := (⟨2, 0⟩, ⟨1, 0⟩), py_range := (⟨3, 8⟩, ⟨3, 11⟩) }
    ∧ adjacentOk [Project.init (⟨2, 0⟩, ⟨2, 2⟩) (⟨3, 8⟩, ⟨3, 11⟩),
        Project.init (⟨1, 0⟩, ⟨1, 5⟩) (⟨3, 8⟩, ⟨3, 11⟩)] = false := by
  decide

/-- C6 amended: constructing a project performs no invariant check at
all — `Project.__init__` stores any ranges verbatim and total, so an
invalid matrix raises nothing; the declared `PROJECTS` matrix does
satisfy the adjacency invariant, but only as an unchecked fact. -/
theorem c6_init_unvalidated :
    (∀ np py : VersionRange, Project.init np py = { np_range := np, py_range := py })
    ∧ adjacentOk PROJECTS = true :=
  ⟨fun _ _ => rfl, by decide⟩

/-- Witness for the amended C6 at the first declared ranges. -/
theorem c6_init_unvalidated_witness :
    Project.init (⟨1, 22⟩, ⟨1, 23⟩) (⟨3, 8⟩, ⟨3, 11⟩)
      = { np_range := ((⟨1, 22⟩ : Version), (⟨1, 23⟩ : Version)),
          py_range := ((⟨3, 8⟩ : Version), (⟨3, 11⟩ : Version)) } :=
  c6_init_unvalidated.1 _ _

/-- C2 amended: for every bracket whose major component is a single
digit (all declared brackets are), and every minor and build number, a
filename produced by the naming scheme parses back, via the pattern its
extension selects, to exactly the same bracket and build number. -/
theorem c2_roundtrip (major minor build : Nat) (h : major < 10) :
    parseIndexFilename (sdistName major minor build) = some (⟨major, minor⟩, build)
    ∧ parseIndexFilename (wheelName major minor build) = some (⟨major, minor⟩, build) :=
  ⟨parse_sdistName h minor build, parse_wheelName h minor build⟩

/-- C2 counterexample: the patterns capture the major component with a
single-digit group `(\d)`, so the bracket `(10, 0)` with build
`20250724` produces filenames that fail to parse at all — the round
trip does not recover `(10, 0, 20250724)`. -/
theorem c2_roundtrip_counterexample :
    parseIndexFilename (sdistName 10 0 20250724) = none
    ∧ parseIndexFilename (wheelName 10 0 20250724) = none := by
  decide

/-- Witness for the amended C2 on the bracket `(1, 22)`. -/
theorem c2_roundtrip_witness :
    parseIndexFilename (sdistName 1 22 20250724) = some (⟨1, 22⟩, 20250724)
    ∧ parseIndexFilename (wheelName 1 22 20250724) = some (⟨1, 22⟩, 20250724) :=
  c2_roundtrip 1 22 20250724 (by decide)

/-- C1 counterexample: with the `--silent` flag, a fresh artifact with
no previously published entry is classified KEEP and its file remains,
but its path is not surfaced to the caller — the unconditional
"surfaced" part of the claim fails. -/
theorem c1_publish_counterexample :
    (publishStep [] ⟨1, 25⟩ ['d','e','a','d'] true).action = .KEEP
    ∧ (publishStep [] ⟨1, 25⟩ ['d','e','a','d'] true).fileRemains = true
    ∧ (publishStep [] ⟨1, 25⟩ ['d','e','a','d'] true).surfaced = false := by
  decide

/-- C1 amended: the decision is DISCARD exactly when a previously
published hash exists for the bracket and equals the freshly computed
sha256 (which is never the empty string); on DISCARD the file is
removed; otherwise the decision is KEEP, the file remains, and the path
is surfaced to the caller unless the `--silent` flag suppresses it. -/
theorem c1_publish_decision (table : List (Version × Nat × List Char)) (np : Version)
    (hash : List Char) (silent : Bool) (hhash : hash ≠ []) :
    ((publishStep table np hash silent).action = .DISCARD ↔
      ∃ b ph, dictGet table np = some (b, ph) ∧ ph = hash)
    ∧ ((publishStep table np hash silent).action = .DISCARD →
        (publishStep table np hash silent).fileRemains = false)
    ∧ ((publishStep table np hash silent).action = .KEEP →
        (publishStep table np hash silent).fileRemains = true
        ∧ (publishStep table np hash silent).surfaced = !silent) := by
  cases hget : dictGet table np with
  | none =>
    have hps : publishStep table np hash silent = ⟨.KEEP, true, !silent⟩ := by
      unfold publishStep
      rw [hget]
      simp only [Option.getD_none]
      rw [if_neg fun hcon => hhash hcon.symm]
    rw [hps]
    refine ⟨?_, ?_, ?_⟩
    · constructor
      · intro hd
        cases hd
      · rintro ⟨b, ph, hsome, _⟩
        cases hsome
    · intro hd
      cases hd
    · intro _
      exact ⟨rfl, rfl⟩
  | some pr =>
    rcases pr with ⟨b, ph⟩
    by_cases hph : ph = hash
    · have hps : publishStep table np hash silent = ⟨.DISCARD, false, false⟩ := by
        unfold publishStep
        rw [hget]
        simp only [Option.getD_some]
        rw [if_pos hph]
      rw [hps]
      refine ⟨⟨fun _ => ⟨b, ph, rfl, hph⟩, fun _ => rfl⟩, fun _ => rfl, fun hk => ?_⟩
      cases hk
    · have hps : publishStep table np hash silent = ⟨.KEEP, true, !silent⟩ := by
        unfold publishStep
        rw [hget]
        simp only [Option.getD_some]
        rw [if_neg hph]
      rw [hps]
      refine ⟨?_, ?_, ?_⟩
      · constructor
        · intro hd
          cases hd
        · rintro ⟨b', ph', hsome, hph'⟩
          cases hsome
          exact absurd hph' hph
      · intro hd
        cases hd
      · intro _
        exact ⟨rfl, rfl⟩

/-- Witness for the amended C1: a matching previous hash gives DISCARD
with the file removed. -/
theorem c1_publish_decision_witness :
    (((publishStep [(⟨1, 25⟩, (20250724, ['a']))] ⟨1, 25⟩ ['a'] false).action = .DISCARD ↔
      ∃ b ph, dictGet [(⟨1, 25⟩, (20250724, ['a']))] ⟨1, 25⟩ = some (b, ph) ∧ ph = ['a'])
    ∧ (((publishStep [(⟨1, 25⟩, (20250724, ['a']))] ⟨1, 25⟩ ['a'] false).action = .DISCARD →
        (publishStep [(⟨1, 25⟩, (20250724, ['a']))] ⟨1, 25⟩ ['a'] false).fileRemains = false))
    ∧ ((publishStep [(⟨1, 25⟩, (20250724, ['a']))] ⟨1, 25⟩ ['a'] false).action = .KEEP →
        (publishStep [(⟨1, 25⟩, (20250724, ['a']))] ⟨1, 25⟩ ['a'] false).fileRemains = true
        ∧ (publishStep [(⟨1, 25⟩, (20250724, ['a']))] ⟨1, 25⟩ ['a'] false).surfaced = !false)) :=
  c1_publish_decision _ _ _ _ (by decide)

/-- C4 counterexample: the previously published entry for bracket
`(1, 25)` carries the very build number of the current run
(`buildNumber 2025 10 12 = 20251012`, the identical declared version
string) with hash `a`, while the fresh sdist hashes to `b`; `main`
classifies it KEEP and carries on — the per-artifact decision has no
fatal-error outcome at all, so no determinism error is ever raised. -/
theorem c4_determinism_counterexample :
    (publishStep [(⟨1, 25⟩, (buildNumber 2025 10 12, ['a']))] ⟨1, 25⟩ ['b'] false).action
      = .KEEP
    ∧ (publishStep [(⟨1, 25⟩, (buildNumber 2025 10 12, ['a']))] ⟨1, 25⟩ ['b'] false).fileRemains
      = true := by
  decide

/-- C4 amended: when the previously published entry for a bracket has
the same build number as the current run (an identical declared version
string) but a different content hash, the code does not fail: it
classifies the artifact KEEP, leaves the file in place, and surfaces it
for publishing unless silenced. -/
theorem c4_same_version_conflict_keeps (table : List (Version × Nat × List Char))
    (np : Version) (hash ph : List Char) (year month day : Nat) (silent : Bool)
    (hget : dictGet table np = some (buildNumber year month day, ph))
    (hne : ph ≠ hash) :
    (publishStep table np hash silent).action = .KEEP
    ∧ (publishStep table np hash silent).fileRemains = true
    ∧ (publishStep table np hash silent).surfaced = !silent := by
  unfold publishStep
  simp [hget, hne]

/-- Witness for the amended C4. -/
theorem c4_same_version_conflict_keeps_witness :
    (publishStep [(⟨1, 25⟩, (buildNumber 2025 10 12, ['a']))] ⟨1, 25⟩ ['b'] true).action
      = .KEEP
    ∧ (publishStep [(⟨1, 25⟩, (buildNumber 2025 10 12, ['a']))] ⟨1, 25⟩ ['b'] true).fileRemains
      = true
    ∧ (publishStep [(⟨1, 25⟩, (buildNumber 2025 10 12, ['a']))] ⟨1, 25⟩ ['b'] true).surfaced
      = !true :=
  c4_same_version_conflict_keeps [(⟨1, 25⟩, (buildNumber 2025 10 12, ['a']))] ⟨1, 25⟩
    ['b'] ['a'] 2025 10 12 true (by decide) (by decide)

/-- C7: a build-tool invocation with a non-zero exit status makes the
orchestrator fail at once with the captured stdout/stderr attached, and
the marker scan of stderr is never reached: the result is the same for
every file-existence predicate and every expected-path pair. -/
theorem c7_nonzero_exit_fails_before_scan (p : CompletedProcess)
    (isFile isFile' : List Char → Bool) (expected expected' : DistInfo (List Char))
    (h : p.returncode ≠ 0) :
    buildStep p isFile expected
      = .error (.calledProcessError p.returncode p.stdout p.stderr)
    ∧ buildStep p isFile expected = buildStep p isFile' expected' := by
  unfold buildStep runCommand
  rw [if_neg h]
  exact ⟨rfl, rfl⟩

/-- Witness for C7 at exit status 1. -/
theorem c7_nonzero_exit_fails_before_scan_witness :
    buildStep ⟨1, ['o'], ['e']⟩ (fun _ => true) ⟨['s'], ['w']⟩
      = .error (.calledProcessError 1 ['o'] ['e'])
    ∧ buildStep ⟨1, ['o'], ['e']⟩ (fun _ => true) ⟨['s'], ['w']⟩
      = buildStep ⟨1, ['o'], ['e']⟩ (fun _ => false) ⟨[], []⟩ :=
  c7_nonzero_exit_fails_before_scan ⟨1, ['o'], ['e']⟩ (fun _ => true) (fun _ => false)
    ⟨['s'], ['w']⟩ ⟨[], []⟩ (by decide)

/-- Marker-count behaviour of the post-build verification. -/
theorem verify_marker_contract (stderr : List Char) (isFile : List Char → Bool)
    (expected : DistInfo (List Char)) :
    ((scanMarkers stderr).length ≠ 2 →
      isError (verifyBuild stderr isFile expected) = true)
    ∧ ((scanMarkers stderr).length = 1 →
        (∀ q ∈ scanMarkers stderr, isFile q = true) →
        verifyBuild stderr isFile expected
          = .error (.countMismatch (scanMarkers stderr)))
    ∧ (scanMarkers stderr = [] →
        verifyBuild stderr isFile expected
          = .error (.noFilesBuilt (splitlines stderr))) := by
  refine ⟨?_, ?_, ?_⟩
  · intro hlen
    unfold verifyBuild
    cases hvp : verifyPaths (scanMarkers stderr) isFile with
    | error e => rfl
    | ok l =>
      have hl : l = scanMarkers stderr := verifyPaths_ok_eq hvp
      rcases l with _ | ⟨a, _ | ⟨b, _ | ⟨c, rest⟩⟩⟩
      · rfl
      · rfl
      · refine absurd ?_ hlen
        rw [← hl]
        simp
      · rfl
  · intro hlen hall
    unfold verifyBuild
    rw [verifyPaths_all hall]
    rcases hshape : scanMarkers stderr with _ | ⟨a, rest⟩
    · rw [hshape] at hlen
      simp at hlen
    · rcases rest with _ | ⟨b, rest2⟩
      · rfl
      · rw [hshape] at hlen
        simp at hlen
  · intro hempty
    unfold verifyBuild
    rw [hempty]
    rfl

/-- C3: for a build-tool invocation that exits with status zero, a
marker count other than two in the captured stderr always fails the
orchestrator; exactly one marker (whose path exists on disk) fails with
the count-mismatch assertion on the discovered paths; zero markers fail
with the constructed error that carries every captured stderr line as a
note. -/
theorem c3_marker_count_contract (p : CompletedProcess) (isFile : List Char → Bool)
    (expected : DistInfo (List Char)) (h0 : p.returncode = 0) :
    ((scanMarkers p.stderr).length ≠ 2 →
      isError (buildStep p isFile expected) = true)
    ∧ ((scanMarkers p.stderr).length = 1 →
        (∀ q ∈ scanMarkers p.stderr, isFile q = true) →
        buildStep p isFile expected
          = .error (.countMismatch (scanMarkers p.stderr)))
    ∧ (scanMarkers p.stderr = [] →
        buildStep p isFile expected
          = .error (.noFilesBuilt (splitlines p.stderr))) := by
  have hb : buildStep p isFile expected = verifyBuild p.stderr isFile expected := by
    unfold buildStep runCommand
    rw [if_pos h0]
  rw [hb]
  exact verify_marker_contract p.stderr isFile expected

/-- Witness for C3: a zero-status invocation whose stderr holds exactly
one success marker gives the count-mismatch failure, and one with no
marker gives the `RuntimeError` carrying the stderr lines as notes. -/
theorem c3_marker_count_contract_witness :
    buildStep ⟨0, [], markerLit ++ ['/','a']⟩ (fun _ => true) ⟨['s'], ['w']⟩
      = .error (.countMismatch (scanMarkers (markerLit ++ ['/','a'])))
    ∧ buildStep ⟨0, [], ['x']⟩ (fun _ => true) ⟨['s'], ['w']⟩
      = .error (.noFilesBuilt (splitlines ['x'])) :=
  ⟨(c3_marker_count_contract ⟨0, [], markerLit ++ ['/','a']⟩ (fun _ => true) ⟨['s'], ['w']⟩
      (by decide)).2.1 (by decide) (by decide),
   (c3_marker_count_contract ⟨0, [], ['x']⟩ (fun _ => true) ⟨['s'], ['w']⟩
      (by decide)).2.2 (by decide)⟩

/-- C9: the fetch of the published index succeeds only when every entry
parses under the pattern its extension selects with a build number
strictly after `20250600`; any entry violating either condition makes
the whole fetch fail with an assertion error — entries are never
silently skipped. -/
theorem c9_fetch_strictness (files : List FileEntry) :
    (∀ tables, fetchLatestReleaseHashes files = .ok tables →
      ∀ f ∈ files, entryOk f = true)
    ∧ ((∃ f ∈ files, entryOk f = false) →
        isError (fetchLatestReleaseHashes files) = true) := by
  constructor
  · intro tables h
    exact foldl_fetch_ok files ⟨[], []⟩ tables h
  · intro h
    exact foldl_fetch_error files ⟨[], []⟩ h

/-- Witness for C9: a well-formed index entry is accepted, and an index
carrying one unparsable filename makes the fetch fail. -/
theorem c9_fetch_strictness_witness :
    entryOk ⟨sdistName 1 22 20250724, ['a']⟩ = true
    ∧ isError (fetchLatestReleaseHashes [⟨['x'], ['a']⟩]) = true :=
  ⟨(c9_fetch_strictness [⟨sdistName 1 22 20250724, ['a']⟩]).1
      ⟨[(⟨1, 22⟩, (20250724, ['a']))], []⟩ (by rfl) _ (by decide),
   (c9_fetch_strictness [⟨['x'], ['a']⟩]).2 (by decide)⟩

/-- C8 counterexample: with no `--keep` flag and an existing generated
directory, a run whose very first build fails propagates the error with
the cleanup of line 358 never executed — the generated project
directories are not deleted on this exit path. -/
theorem c8_cleanup_counterexample :
    (mainCleanup [] (fun _ => .error (.noFilesBuilt [])) true).projectsDirRemoved = false
    ∧ (mainCleanup [] (fun _ => .error (.noFilesBuilt [])) true).failure
        = some (.noFilesBuilt []) := by
  constructor
  · rfl
  · rfl

/-- C8 amended: the generated project directories are deleted only on
the successful exit path — when every build succeeded and `--keep` was
not passed (and the directory exists); when any build raises, the error
escapes `main` before the cleanup line, which is therefore skipped. -/
theorem c8_cleanup_only_on_success (args : List (List Char))
    (buildOf : Project → Except BuildFailure Unit) (dirExists : Bool) :
    (∀ e, runBuilds buildOf PROJECTS = some e →
      (mainCleanup args buildOf dirExists).failure = some e
      ∧ (mainCleanup args buildOf dirExists).projectsDirRemoved = false)
    ∧ (runBuilds buildOf PROJECTS = none →
      (mainCleanup args buildOf dirExists).failure = none
      ∧ (mainCleanup args buildOf dirExists).projectsDirRemoved
          = (!(args.contains ['-','-','k','e','e','p']) && dirExists)) := by
  constructor
  · intro e he
    unfold mainCleanup
    rw [he]
    exact ⟨rfl, rfl⟩
  · intro hnone
    unfold mainCleanup
    rw [hnone]
    exact ⟨rfl, rfl⟩

/-- Witness for the amended C8: an all-successful run with no `--keep`
and an existing directory removes it. -/
theorem c8_cleanup_only_on_success_witness :
    (mainCleanup [] (fun _ => .ok ()) true).failure = none
    ∧ (mainCleanup [] (fun _ => .ok ()) true).projectsDirRemoved
        = (!(List.contains ([] : List (List Char)) ['-','-','k','e','e','p']) && true) :=
  (c8_cleanup_only_on_success [] (fun _ => .ok ()) true).2 (by rfl)

/-- C10: the build identifier is a single value computed from the date,
and every project in the matrix carries exactly that value as the build
number of its version string, its package name, and both of its
artifact filenames; in particular any two projects of one run agree on
it. -/
theorem c10_build_number_uniform (year month day : Nat) (p : Project)
    (hp : p ∈ PROJECTS) :
    trailingNatVal (p.version (buildNumber year month day))
      = some (buildNumber year month day)
    ∧ trailingNatVal (p.name (buildNumber year month day))
      = some (buildNumber year month day)
    ∧ parseIndexFilename (p.sdistFile (buildNumber year month day))
      = some (p.np_range.1, buildNumber year month day)
    ∧ parseIndexFilename (p.wheelFile (buildNumber year month day))
      = some (p.np_range.1, buildNumber year month day)
    ∧ ∀ q ∈ PROJECTS,
        trailingNatVal (q.version (buildNumber year month day))
          = trailingNatVal (p.version (buildNumber year month day)) := by
  have hmaj : p.np_range.1.major < 10 := by
    fin_cases hp <;> decide
  refine ⟨?_, ?_, ?_, ?_, ?_⟩
  · exact trailingNatVal_append (versionChars p.np_range.1) (buildNumber year month day)
  · rw [name_shape]
    exact trailingNatVal_append _ _
  · rw [sdistFile_eq]
    exact parse_sdistName hmaj _ _
  · rw [wheelFile_eq]
    exact parse_wheelName hmaj _ _
  · intro q _
    show trailingNatVal
        (versionChars q.np_range.1 ++ '.' :: natToDigits (buildNumber year month day))
      = trailingNatVal
        (versionChars p.np_range.1 ++ '.' :: natToDigits (buildNumber year month day))
    rw [trailingNatVal_append, trailingNatVal_append]

/-- Witness for C10 at the first matrix entry on 2025-10-12. -/
theorem c10_build_number_uniform_witness :
    trailingNatVal ((Project.init (⟨1, 22⟩, ⟨1, 23⟩) (⟨3, 8⟩, ⟨3, 11⟩)).version
        (buildNumber 2025 10 12))
      = some (buildNumber 2025 10 12)
    ∧ trailingNatVal ((Project.init (⟨1, 22⟩, ⟨1, 23⟩) (⟨3, 8⟩, ⟨3, 11⟩)).name
        (buildNumber 2025 10 12))
      = some (buildNumber 2025 10 12)
    ∧ parseIndexFilename ((Project.init (⟨1, 22⟩, ⟨1, 23⟩) (⟨3, 8⟩, ⟨3, 11⟩)).sdistFile
        (buildNumber 2025 10 12))
      = some ((Project.init (⟨1, 22⟩, ⟨1, 23⟩) (⟨3, 8⟩, ⟨3, 11⟩)).np_range.1,
          buildNumber 2025 10 12)
    ∧ parseIndexFilename ((Project.init (⟨1, 22⟩, ⟨1, 23⟩) (⟨3, 8⟩, ⟨3, 11⟩)).wheelFile
        (buildNumber 2025 10 12))
      = some ((Project.init (⟨1, 22⟩, ⟨1, 23⟩) (⟨3, 8⟩, ⟨3, 11⟩)).np_range.1,
          buildNumber 2025 10 12)
    ∧ ∀ q ∈ PROJECTS,
        trailingNatVal (q.version (buildNumber 2025 10 12))
          = trailingNatVal ((Project.init (⟨1, 22⟩, ⟨1, 23⟩) (⟨3, 8⟩, ⟨3, 11⟩)).version
              (buildNumber 2025 10 12)) :=
  c10_build_number_uniform 2025 10 12 (Project.init (⟨1, 22⟩, ⟨1, 23⟩) (⟨3, 8⟩, ⟨3, 11⟩))
    (by decide)

